import Mathlib

/-!
Verification of the Alpine Athletics Resort booking server.

The server (Express.js, file-based JSON storage) exposes CRUD operations on a
single collection of booking records plus a bearer-token guard for admin
routes.  We embed the handlers shallowly: the JSON file content is a
`List Booking`, each handler is a pure function from the request data and the
current store to a response together with the new store, and the system clock
(`Date.now()` / `new Date()`) is an explicit `now : Nat` parameter.
-/

namespace Hotel

/-- A booking record, as built by the POST /api/bookings handler.
`createdAt`/`updatedAt` are clock readings; `updatedAt` is absent until the
first status update (the JS object is created without that key).
`totalPrice` is taken from the request body as given and may be absent. -/
structure Booking where
  id : String
  fullName : String
  email : String
  phone : String
  checkIn : String
  checkOut : String
  message : String
  totalPrice : Option Int
  status : String
  createdAt : Nat
  updatedAt : Option Nat
deriving DecidableEq, Repr

/-- Create-request body: every field may be absent (`undefined` in JS). -/
structure CreateInput where
  fullName : Option String
  email : Option String
  phone : Option String
  checkIn : Option String
  checkOut : Option String
  message : Option String
  totalPrice : Option Int
deriving DecidableEq, Repr

/-- JS falsiness of an optional string field: `!x` is true exactly when the
field is absent (`undefined`) or the empty string. -/
def isBlank : Option String → Bool
  | none => true
  | some s => s == ""

/-- The validation test of POST /api/bookings:
`!fullName || !email || !phone || !checkIn || !checkOut`. -/
def requiredMissing (input : CreateInput) : Bool :=
  isBlank input.fullName || isBlank input.email || isBlank input.phone ||
    isBlank input.checkIn || isBlank input.checkOut

/-- The `newBooking` object literal of the create handler.
`id := Date.now().toString()` is `Nat.repr now`; `message || ''` yields the
message when it is a non-empty string and `''` otherwise, which is exactly
`Option.getD "" ` on our model.  The `getD ""` on the required fields is only
reached after validation, where the field is a non-empty `some`. -/
def newBooking (now : Nat) (input : CreateInput) : Booking where
  id := Nat.repr now
  fullName := input.fullName.getD ""
  email := input.email.getD ""
  phone := input.phone.getD ""
  checkIn := input.checkIn.getD ""
  checkOut := input.checkOut.getD ""
  message := input.message.getD ""
  totalPrice := input.totalPrice
  status := "pending"
  createdAt := now
  updatedAt := none

/-- Response of POST /api/bookings: 201 with the created record, or 400. -/
inductive CreateResponse where
  | created (b : Booking)
  | badRequest
deriving DecidableEq, Repr

/-- POST /api/bookings: validate, build `newBooking`, push it onto the array,
persist.  Returns the HTTP response and the persisted store. -/
def createBooking (now : Nat) (input : CreateInput) (store : List Booking) :
    CreateResponse × List Booking :=
  if requiredMissing input then
    (.badRequest, store)
  else
    (.created (newBooking now input), store ++ [newBooking now input])

/-- Response of PUT /api/admin/bookings/:id: 200 with the updated record,
or 404. -/
inductive UpdateResponse where
  | ok (b : Booking)
  | notFound
deriving DecidableEq, Repr

/-- The two mutated fields of the status-update handler:
`bookings[i].status = status; bookings[i].updatedAt = new Date()...`. -/
def setStatus (now : Nat) (status : String) (b : Booking) : Booking :=
  { b with status := status, updatedAt := some now }

/-- The search-and-mutate step of the status-update handler:
`findIndex(booking => booking.id === id)` followed by in-place mutation of
that element.  Updates the first booking whose id matches, returning the
updated record and the new list, or `none` when no id matches. -/
def updateFirst (now : Nat) (id status : String) :
    List Booking → Option (Booking × List Booking)
  | [] => none
  | b :: rest =>
    if b.id = id then
      some (setStatus now status b, setStatus now status b :: rest)
    else
      match updateFirst now id status rest with
      | none => none
      | some (ub, rest') => some (ub, b :: rest')

/-- PUT /api/admin/bookings/:id: 404 when `findIndex` returns -1 and the file
is not rewritten; otherwise the mutated array is persisted and the updated
record returned. -/
def updateStatus (now : Nat) (id status : String) (store : List Booking) :
    UpdateResponse × List Booking :=
  match updateFirst now id status store with
  | none => (.notFound, store)
  | some (ub, store') => (.ok ub, store')

/-- GET /api/bookings/:id: `bookings.find(b => b.id === req.params.id)`;
`none` is the 404 case. -/
def getById (id : String) (store : List Booking) : Option Booking :=
  store.find? (fun b => b.id == id)

/-! ### Admin guard (middleware/auth.js) -/

/-- Outcome of the auth middleware: 401, 403, or `next()`. -/
inductive AuthResult where
  | unauthorized
  | forbidden
  | proceed
deriving DecidableEq, Repr

/-- The hardcoded admin secret compared by the middleware. -/
def adminSecret : String := "Password1"

/-- JS `String.prototype.split(' ')` with a single-space separator: cut at
every space, keeping empty pieces; the empty string yields `[""]`. -/
def jsSplitAux : List Char → List Char → List String
  | [], cur => [String.mk cur.reverse]
  | c :: rest, cur =>
    if c = ' ' then String.mk cur.reverse :: jsSplitAux rest []
    else jsSplitAux rest (c :: cur)

/-- JS `header.split(' ')`. -/
def jsSplit (s : String) : List String :=
  jsSplitAux s.data []

/-- The auth middleware: absent header → 401; otherwise
`bearerHeader.split(' ')[1] === 'Password1'` decides between `next()` and
403 (an absent second element compares unequal, hence 403). -/
def auth (header : Option String) : AuthResult :=
  match header with
  | none => .unauthorized
  | some h =>
    match (jsSplit h)[1]? with
    | some tok => if tok = adminSecret then .proceed else .forbidden
    | none => .forbidden

/-! ### Sequences of operations -/

/-- The status strings enumerated by the spec. -/
def isValidStatus (s : String) : Bool :=
  s == "pending" || s == "confirmed" || s == "cancelled" || s == "completed"

/-- A store-mutating request: a create or a status update, each carrying its
clock reading. -/
inductive Op where
  | create (now : Nat) (input : CreateInput)
  | update (now : Nat) (id : String) (status : String)
deriving DecidableEq, Repr

/-- Effect of one request on the persisted store. -/
def applyOp (store : List Booking) : Op → List Booking
  | .create now input => (createBooking now input store).2
  | .update now id status => (updateStatus now id status store).2

/-- The store after a sequence of requests, starting from `store`. -/
def runOpsFrom (store : List Booking) (ops : List Op) : List Booking :=
  ops.foldl applyOp store

/-- The store after a sequence of requests, starting from the empty file. -/
def runOps (ops : List Op) : List Booking :=
  runOpsFrom [] ops

/-- Whether an operation only ever writes one of the four enumerated status
values (creates always do; updates do when their argument is one). -/
def opStatusValid : Op → Bool
  | .create _ _ => true
  | .update _ _ status => isValidStatus status

/-- The store after a sequence of create requests, starting from `store`. -/
def runCreatesFrom (store : List Booking) (ops : List (Nat × CreateInput)) :
    List Booking :=
  ops.foldl (fun s p => (createBooking p.1 p.2 s).2) store

/-- The store after a sequence of create requests from the empty file. -/
def runCreates (ops : List (Nat × CreateInput)) : List Booking :=
  runCreatesFrom [] ops

/-- The frame condition of a status update on `store` at `id`: some index `i`
holds the updated record, which differs from the old one only in `status` and
`updatedAt`, and every other index of the store is untouched. -/
def frameSpec (now : Nat) (id status : String) (store : List Booking) : Prop :=
  ∃ (i : Nat) (ob nb : Booking),
    store[i]? = some ob ∧
    ((updateStatus now id status store).2)[i]? = some nb ∧
    nb.status = status ∧ nb.updatedAt = some now ∧
    nb.id = ob.id ∧ nb.fullName = ob.fullName ∧ nb.email = ob.email ∧
    nb.phone = ob.phone ∧ nb.checkIn = ob.checkIn ∧ nb.checkOut = ob.checkOut ∧
    nb.message = ob.message ∧ nb.totalPrice = ob.totalPrice ∧
    nb.createdAt = ob.createdAt ∧
    ∀ j, j ≠ i → ((updateStatus now id status store).2)[j]? = store[j]?

/-! ### Concrete sample data used in examples, witnesses and
counterexamples -/

/-- A fully populated valid create input. -/
def sampleInput : CreateInput where
  fullName := some "Jane Doe"
  email := some "jane@x.com"
  phone := some "5551234567"
  checkIn := some "2025-06-01"
  checkOut := some "2025-06-03"
  message := none
  totalPrice := some 400

/-- A create input whose email is absent. -/
def missingInput : CreateInput where
  fullName := some "Jane Doe"
  email := none
  phone := some "5551234567"
  checkIn := some "2025-06-01"
  checkOut := some "2025-06-03"
  message := none
  totalPrice := some 400

/-- A stored booking whose id is the string "5". -/
def clashBooking : Booking where
  id := "5"
  fullName := "Alice Prior"
  email := "alice@x.com"
  phone := "1112223333"
  checkIn := "2025-01-01"
  checkOut := "2025-01-02"
  message := ""
  totalPrice := none
  status := "pending"
  createdAt := 0
  updatedAt := none

end Hotel

namespace Hotel

/-! ### Injectivity of the id encoding

Booking ids are `Date.now().toString()`, i.e. `Nat.repr` of the clock
reading.  Distinct clock readings give distinct ids: we relate core's
fuelled `Nat.toDigitsCore` to Mathlib's `Nat.digits` and conclude. -/

lemma digitChar_injOn :
    ∀ a, a < 10 → ∀ b, b < 10 → Nat.digitChar a = Nat.digitChar b → a = b := by
  decide

lemma map_digitChar_inj (l1 : List Nat) :
    ∀ l2 : List Nat, (∀ d ∈ l1, d < 10) → (∀ d ∈ l2, d < 10) →
      l1.map Nat.digitChar = l2.map Nat.digitChar → l1 = l2 := by
  induction l1 with
  | nil =>
    intro l2 _ _ h
    cases l2 with
    | nil => rfl
    | cons b t => simp at h
  | cons a t ih =>
    intro l2 h1 h2 h
    cases l2 with
    | nil => simp at h
    | cons b t2 =>
      simp only [List.map_cons, List.cons.injEq] at h
      have ha : a = b :=
        digitChar_injOn a (h1 a (by simp)) b (h2 b (by simp)) h.1
      have ht : t = t2 :=
        ih t2 (fun d hd => h1 d (by simp [hd])) (fun d hd => h2 d (by simp [hd])) h.2
      rw [ha, ht]

lemma toDigitsCore_eq_digits :
    ∀ (fuel n : Nat) (ds : List Char), n ≠ 0 → n < fuel →
      Nat.toDigitsCore 10 fuel n ds =
        ((Nat.digits 10 n).map Nat.digitChar).reverse ++ ds := by
  intro fuel
  induction fuel with
  | zero => intro n ds hn hlt; omega
  | succ f ih =>
    intro n ds hn hlt
    have hdef : Nat.digits 10 n = n % 10 :: Nat.digits 10 (n / 10) :=
      Nat.digits_def' (by norm_num) (Nat.pos_of_ne_zero hn)
    by_cases h10 : n / 10 = 0
    · rw [Nat.toDigitsCore]
      simp [h10, hdef]
    · rw [Nat.toDigitsCore]
      simp only [h10, if_false]
      have hlt' : n / 10 < f := by
        have := Nat.div_lt_self (Nat.pos_of_ne_zero hn) (by norm_num : 1 < 10)
        omega
      rw [ih (n / 10) (Nat.digitChar (n % 10) :: ds) h10 hlt', hdef]
      simp [List.append_assoc]

lemma repr_eq_digits (n : Nat) (hn : n ≠ 0) :
    Nat.repr n = (((Nat.digits 10 n).map Nat.digitChar).reverse).asString := by
  unfold Nat.repr Nat.toDigits
  rw [toDigitsCore_eq_digits (n + 1) n [] hn (by omega), List.append_nil]

lemma asString_inj {l1 l2 : List Char} (h : l1.asString = l2.asString) :
    l1 = l2 :=
  congrArg String.data h

lemma repr_ne_zero_repr (n : Nat) (hn : n ≠ 0) : Nat.repr n ≠ Nat.repr 0 := by
  intro h
  rw [repr_eq_digits n hn] at h
  have h0 : Nat.repr 0 = List.asString ['0'] := rfl
  rw [h0] at h
  have hl := asString_inj h
  cases hd : Nat.digits 10 n with
  | nil =>
    have hne : Nat.digits 10 n ≠ [] := Nat.digits_ne_nil_iff_ne_zero.mpr hn
    exact hne hd
  | cons d t =>
    cases t with
    | nil =>
      rw [hd] at hl
      simp only [List.map_cons, List.map_nil, List.reverse_cons, List.reverse_nil,
        List.nil_append, List.cons.injEq] at hl
      have hdlt : d < 10 :=
        Nat.digits_lt_base (by norm_num) (by rw [hd]; exact List.mem_singleton_self d)
      have hd0 : d = 0 :=
        digitChar_injOn d hdlt 0 (by norm_num) hl.1
      have hofd := Nat.ofDigits_digits 10 n
      rw [hd, hd0] at hofd
      simp [Nat.ofDigits] at hofd
      exact hn hofd.symm
    | cons d2 t2 =>
      rw [hd] at hl
      simp only [List.map_cons, List.reverse_cons] at hl
      have := congrArg List.length hl
      simp at this

lemma repr_injective : Function.Injective Nat.repr := by
  intro m n h
  by_cases hm : m = 0
  · by_cases hn : n = 0
    · rw [hm, hn]
    · exact absurd h.symm (repr_ne_zero_repr n hn ∘ (hm ▸ ·))
  · by_cases hn : n = 0
    · exact absurd h (repr_ne_zero_repr m hm ∘ (hn ▸ ·))
    · rw [repr_eq_digits m hm, repr_eq_digits n hn] at h
      have hl := List.reverse_injective (asString_inj h)
      have hdig :=
        map_digitChar_inj (Nat.digits 10 m) (Nat.digits 10 n)
          (fun d hd => Nat.digits_lt_base (by norm_num) hd)
          (fun d hd => Nat.digits_lt_base (by norm_num) hd) hl
      exact Nat.digits_inj_iff.mp hdig

/-! ### Characterisation of the status-update search -/

lemma updateFirst_eq_none (now : Nat) (id status : String) :
    ∀ store : List Booking, (∀ b ∈ store, b.id ≠ id) →
      updateFirst now id status store = none := by
  intro store
  induction store with
  | nil => intro _; rfl
  | cons b rest ih =>
    intro h
    have hb : ¬b.id = id := h b (List.mem_cons_self b rest)
    simp [updateFirst, hb, ih (fun x hx => h x (List.mem_cons_of_mem b hx))]

lemma updateFirst_some_of_mem (now : Nat) (id status : String) :
    ∀ store : List Booking, (∃ b ∈ store, b.id = id) →
      ∃ ub store', updateFirst now id status store = some (ub, store') := by
  intro store
  induction store with
  | nil => simp
  | cons b rest ih =>
    intro hmem
    obtain ⟨b', hb', hid⟩ := hmem
    by_cases hb : b.id = id
    · exact ⟨setStatus now status b, setStatus now status b :: rest,
        by simp [updateFirst, hb]⟩
    · rcases List.mem_cons.mp hb' with h1 | h2
      · exact absurd (h1 ▸ hid) hb
      · obtain ⟨ub, store', hu⟩ := ih ⟨b', h2, hid⟩
        exact ⟨ub, b :: store', by simp [updateFirst, hb, hu]⟩

lemma updateFirst_some_char (now : Nat) (id status : String) :
    ∀ (store : List Booking) (ub : Booking) (store' : List Booking),
      updateFirst now id status store = some (ub, store') →
      ∃ pre b post,
        store = pre ++ b :: post ∧ (∀ x ∈ pre, x.id ≠ id) ∧ b.id = id ∧
          ub = setStatus now status b ∧
          store' = pre ++ setStatus now status b :: post := by
  intro store
  induction store with
  | nil => intro ub store' h; simp [updateFirst] at h
  | cons b rest ih =>
    intro ub store' h
    by_cases hb : b.id = id
    · rw [updateFirst, if_pos hb] at h
      obtain ⟨hub, hst⟩ := Prod.mk.injEq .. ▸ Option.some.inj h
      exact ⟨[], b, rest, by simp, by simp, hb, hub.symm, by simp [hst.symm]⟩
    · rw [updateFirst, if_neg hb] at h
      cases hu : updateFirst now id status rest with
      | none => rw [hu] at h; cases h
      | some p =>
        obtain ⟨ub', rest'⟩ := p
        rw [hu] at h
        obtain ⟨hub, hst⟩ := Prod.mk.injEq .. ▸ Option.some.inj h
        obtain ⟨pre, b0, post, hrest, hpre, hid0, hub', hrest'⟩ :=
          ih ub' rest' hu
        refine ⟨b :: pre, b0, post, by simp [hrest], ?_, hid0, hub ▸ hub', ?_⟩
        · intro x hx
          rcases List.mem_cons.mp hx with h1 | h2
          · rw [h1]; exact hb
          · exact hpre x h2
        · rw [← hst, hrest']
          simp

/-! ### Claim theorems -/

/-- C3: for every stored collection and every id present in it,
`updateStatus id status` modifies only the `status` and `updatedAt` fields of
the matched booking; every other field of that booking and every other
booking in the collection are unchanged. -/
theorem updateStatus_frame (now : Nat) (id status : String)
    (store : List Booking) (hmem : ∃ b ∈ store, b.id = id) :
    frameSpec now id status store := by
  obtain ⟨ub, store', hu⟩ := updateFirst_some_of_mem now id status store hmem
  obtain ⟨pre, b, post, hstore, hpre, hid, hub, hstore'⟩ :=
    updateFirst_some_char now id status store ub store' hu
  have hsnd : (updateStatus now id status store).2 = store' := by
    simp [updateStatus, hu]
  refine ⟨pre.length, b, setStatus now status b, ?_, ?_, rfl, rfl, rfl, rfl,
    rfl, rfl, rfl, rfl, rfl, rfl, rfl, ?_⟩
  · rw [hstore, List.getElem?_append_right (Nat.le_refl _)]
    simp
  · rw [hsnd, hstore', List.getElem?_append_right (Nat.le_refl _)]
    simp
  · intro j hj
    rw [hsnd, hstore', hstore]
    rcases Nat.lt_or_ge j pre.length with hlt | hge
    · rw [List.getElem?_append_left hlt, List.getElem?_append_left hlt]
    · have hgt : pre.length < j := Nat.lt_of_le_of_ne hge (fun h => hj h.symm)
      rw [List.getElem?_append_right hge, List.getElem?_append_right hge]
      obtain ⟨k, hk⟩ : ∃ k, j - pre.length = k + 1 :=
        ⟨j - pre.length - 1, by omega⟩
      rw [hk, List.getElem?_cons_succ, List.getElem?_cons_succ]

/-- C4: for every stored collection and every id not present in it,
`updateStatus` returns NotFound and leaves the store exactly as it was. -/
theorem updateStatus_notFound (now : Nat) (id status : String)
    (store : List Booking) (h : ∀ b ∈ store, b.id ≠ id) :
    updateStatus now id status store = (.notFound, store) := by
  simp [updateStatus, updateFirst_eq_none now id status store h]

/-- C7: for every id present in the store and every string `s` whatsoever,
`updateStatus id s` succeeds and stores `s` verbatim as the matched booking's
status — no validation is performed on the incoming value. -/
theorem updateStatus_permissive (now : Nat) (id s : String)
    (store : List Booking) (hmem : ∃ b ∈ store, b.id = id) :
    ∃ nb, (updateStatus now id s store).1 = .ok nb ∧ nb.status = s ∧
      nb ∈ (updateStatus now id s store).2 := by
  obtain ⟨ub, store', hu⟩ := updateFirst_some_of_mem now id s store hmem
  obtain ⟨pre, b, post, hstore, hpre, hid, hub, hstore'⟩ :=
    updateFirst_some_char now id s store ub store' hu
  refine ⟨ub, by simp [updateStatus, hu], by rw [hub]; rfl, ?_⟩
  have hsnd : (updateStatus now id s store).2 = store' := by
    simp [updateStatus, hu]
  rw [hsnd, hstore', hub]
  simp

/-- C1: a create request whose required fields are all present and non-empty
succeeds with 201, appends the created record to the store and returns it;
the record has status pending, createdAt equal to the creation time, and an
empty message whenever the input omits the message. -/
theorem createBooking_valid (now : Nat) (input : CreateInput)
    (store : List Booking)
    (h1 : isBlank input.fullName = false) (h2 : isBlank input.email = false)
    (h3 : isBlank input.phone = false) (h4 : isBlank input.checkIn = false)
    (h5 : isBlank input.checkOut = false) :
    ∃ b, createBooking now input store = (.created b, store ++ [b]) ∧
      b.status = "pending" ∧ b.createdAt = now ∧
      (input.message = none → b.message = "") := by
  have hmiss : requiredMissing input = false := by
    simp [requiredMissing, h1, h2, h3, h4, h5]
  refine ⟨newBooking now input, by simp [createBooking, hmiss], rfl, rfl, ?_⟩
  intro hm
  simp [newBooking, hm]

/-- C8: a create request with at least one required field missing or empty
fails with 400 and leaves the store exactly as it was. -/
theorem createBooking_invalid (now : Nat) (input : CreateInput)
    (store : List Booking)
    (h : isBlank input.fullName = true ∨ isBlank input.email = true ∨
      isBlank input.phone = true ∨ isBlank input.checkIn = true ∨
      isBlank input.checkOut = true) :
    createBooking now input store = (.badRequest, store) := by
  have hmiss : requiredMissing input = true := by
    rcases h with h | h | h | h | h <;> simp [requiredMissing, h]
  simp [createBooking, hmiss]

/-- C9 (amended): after a valid create on a store that holds no booking whose
id equals the id the create generates, `getById` on the returned booking's id
finds exactly that booking. -/
theorem create_then_getById (now : Nat) (input : CreateInput)
    (store : List Booking)
    (hval : requiredMissing input = false)
    (hfresh : ∀ b ∈ store, b.id ≠ Nat.repr now) :
    ∃ b, (createBooking now input store).1 = .created b ∧
      getById b.id (createBooking now input store).2 = some b := by
  refine ⟨newBooking now input, by simp [createBooking, hval], ?_⟩
  have hsnd : (createBooking now input store).2 =
      store ++ [newBooking now input] := by
    simp [createBooking, hval]
  rw [hsnd]
  unfold getById
  rw [List.find?_append]
  have hnone :
      store.find? (fun b => b.id == (newBooking now input).id) = none := by
    apply List.find?_eq_none.mpr
    intro x hx
    simp only [beq_eq_false_iff_ne, ne_eq, Bool.not_eq_true]
    simpa using hfresh x hx
  rw [hnone]
  simp [List.find?]

/-! ### Guard claims -/

/-- C2: the guard is a total three-way case split — absent header gives 401,
a present header whose second space-separated token differs from the secret
gives 403, and a matching second token lets the request proceed. -/
theorem auth_trichotomy (header : Option String) :
    (auth header = .unauthorized ↔ header = none) ∧
    (auth header = .forbidden ↔
      ∃ h, header = some h ∧ (jsSplit h)[1]? ≠ some adminSecret) ∧
    (auth header = .proceed ↔
      ∃ h, header = some h ∧ (jsSplit h)[1]? = some adminSecret) := by
  cases header with
  | none => simp [auth]
  | some h =>
    cases htok : (jsSplit h)[1]? with
    | none => simp [auth, htok]
    | some tok =>
      by_cases he : tok = adminSecret
      · simp [auth, htok, he]
      · simp [auth, htok, he]

/-- C10: the guard compares only the second space-separated token of the
header against the secret — the scheme word and any later tokens are
irrelevant, so a header like "NotBearer Password1" is accepted. -/
theorem auth_second_token (h : String)
    (hsec : (jsSplit h)[1]? = some adminSecret) :
    auth (some h) = .proceed := by
  simp [auth, hsec]

theorem auth_second_token_witness :
    ((jsSplit "NotBearer Password1")[1]? = some adminSecret ∧
      auth (some "NotBearer Password1") = .proceed) ∧
    ((jsSplit "Bearer Password1 extra")[1]? = some adminSecret ∧
      auth (some "Bearer Password1 extra") = .proceed) :=
  ⟨⟨by decide, auth_second_token "NotBearer Password1" (by decide)⟩,
    ⟨by decide, auth_second_token "Bearer Password1 extra" (by decide)⟩⟩

/-! ### Sanity checks on concrete inputs -/

example : (createBooking 5 sampleInput []).1 =
    .created (newBooking 5 sampleInput) := by decide

example : (newBooking 5 sampleInput).id = "5" := by decide

example : auth none = .unauthorized := by decide
example : auth (some "Bearer Password1") = .proceed := by decide
example : auth (some "Bearer wrong") = .forbidden := by decide
example : auth (some "NotBearer Password1") = .proceed := by decide
example : auth (some "Bearer Password1 extra") = .proceed := by decide
example : auth (some "Password1") = .forbidden := by decide

/-! ### Effect of a single operation on store membership -/

lemma runOpsFrom_cons (store : List Booking) (op : Op) (ops : List Op) :
    runOpsFrom store (op :: ops) = runOpsFrom (applyOp store op) ops := rfl

lemma runCreatesFrom_cons (store : List Booking) (p : Nat × CreateInput)
    (ops : List (Nat × CreateInput)) :
    runCreatesFrom store (p :: ops) =
      runCreatesFrom (createBooking p.1 p.2 store).2 ops := rfl

lemma createBooking_snd_cases (now : Nat) (input : CreateInput)
    (store : List Booking) :
    (createBooking now input store).2 = store ∨
      (createBooking now input store).2 = store ++ [newBooking now input] := by
  by_cases h : requiredMissing input = true <;> simp [createBooking, h]

lemma mem_createBooking_snd (now : Nat) (input : CreateInput)
    (store : List Booking) (b : Booking)
    (hb : b ∈ (createBooking now input store).2) :
    b ∈ store ∨ b = newBooking now input := by
  rcases createBooking_snd_cases now input store with hc | hc
  · rw [hc] at hb; exact Or.inl hb
  · rw [hc] at hb
    rcases List.mem_append.mp hb with h1 | h2
    · exact Or.inl h1
    · exact Or.inr (List.mem_singleton.mp h2)

lemma mem_updateStatus_snd (now : Nat) (id status : String)
    (store : List Booking) (b : Booking)
    (hb : b ∈ (updateStatus now id status store).2) :
    b ∈ store ∨ b.status = status := by
  cases hu : updateFirst now id status store with
  | none =>
    rw [updateStatus, hu] at hb
    exact Or.inl hb
  | some p =>
    obtain ⟨ub, store'⟩ := p
    rw [updateStatus, hu] at hb
    obtain ⟨pre, b0, post, hstore, hpre, hid, hub, hstore'⟩ :=
      updateFirst_some_char now id status store ub store' hu
    rw [hstore'] at hb
    rcases List.mem_append.mp hb with h1 | h2
    · exact Or.inl (hstore ▸ List.mem_append.mpr (Or.inl h1))
    · rcases List.mem_cons.mp h2 with h3 | h4
      · exact Or.inr (by rw [h3]; rfl)
      · exact Or.inl (hstore ▸ List.mem_append.mpr
          (Or.inr (List.mem_cons_of_mem _ h4)))

/-! ### Reachability invariants -/

lemma runOpsFrom_status (ops : List Op) :
    ∀ store : List Booking,
      (∀ b ∈ store, isValidStatus b.status = true) →
      (∀ op ∈ ops, opStatusValid op = true) →
      ∀ b ∈ runOpsFrom store ops, isValidStatus b.status = true := by
  induction ops with
  | nil => intro store hs _ b hb; exact hs b hb
  | cons op rest ih =>
    intro store hs hops b hb
    rw [runOpsFrom_cons] at hb
    have hstep : ∀ b' ∈ applyOp store op, isValidStatus b'.status = true := by
      intro b' hb'
      cases op with
      | create now input =>
        rcases mem_createBooking_snd now input store b' hb' with h1 | h2
        · exact hs b' h1
        · rw [h2]; rfl
      | update now id status =>
        rcases mem_updateStatus_snd now id status store b' hb' with h1 | h2
        · exact hs b' h1
        · rw [h2]
          exact hops (Op.update now id status) (List.mem_cons_self _ _)
    exact ih (applyOp store op) hstep
      (fun o ho => hops o (List.mem_cons_of_mem _ ho)) b hb

/-- C5 (amended): a store reached from the empty file through creates and
status updates whose status arguments are all among the four enumerated
values contains only bookings whose status is one of those values.  (The
update handler itself does not validate the status, so the restriction on
the update arguments is necessary.) -/
theorem status_always_enumerated (ops : List Op)
    (h : ∀ op ∈ ops, opStatusValid op = true) :
    ∀ b ∈ runOps ops, isValidStatus b.status = true :=
  runOpsFrom_status ops [] (fun b hb => absurd hb (List.not_mem_nil b)) h

theorem status_always_enumerated_witness :
    (∀ op ∈ [Op.create 1 sampleInput, Op.update 2 "1" "confirmed"],
      opStatusValid op = true) ∧
    ∀ b ∈ runOps [Op.create 1 sampleInput, Op.update 2 "1" "confirmed"],
      isValidStatus b.status = true :=
  ⟨by decide, status_always_enumerated _ (by decide)⟩

/-- C5 fails as stated: from the empty store, a create at time 1 followed by
a status update to the string "garbage" leaves a booking whose status is
none of the four enumerated values. -/
theorem status_always_enumerated_counterexample :
    ∃ b ∈ runOps [Op.create 1 sampleInput, Op.update 2 "1" "garbage"],
      isValidStatus b.status = false := by decide

lemma runCreatesFrom_nodup (ops : List (Nat × CreateInput)) :
    ∀ store : List Booking,
      (store.map Booking.id).Nodup →
      (∀ p ∈ ops, ∀ b ∈ store, b.id ≠ Nat.repr p.1) →
      (ops.map Prod.fst).Nodup →
      ((runCreatesFrom store ops).map Booking.id).Nodup := by
  induction ops with
  | nil => intro store h1 _ _; exact h1
  | cons p rest ih =>
    obtain ⟨t, input⟩ := p
    intro store h1 h2 h3
    rw [runCreatesFrom_cons]
    rw [List.map_cons] at h3
    have h3c := List.nodup_cons.mp h3
    rcases createBooking_snd_cases t input store with hc | hc
    · rw [hc]
      exact ih store h1
        (fun q hq b hb => h2 q (List.mem_cons_of_mem _ hq) b hb) h3c.2
    · rw [hc]
      apply ih
      · rw [List.map_append, List.nodup_append]
        refine ⟨h1, by simp, ?_⟩
        intro a ha hb
        simp only [List.map_cons, List.map_nil, List.mem_singleton] at hb
        obtain ⟨b, hbs, hbid⟩ := List.mem_map.mp ha
        exact h2 (t, input) (List.mem_cons_self _ _) b hbs
          (by rw [hbid, hb]; rfl)
      · intro q hq b hb
        rcases List.mem_append.mp hb with hbs | hbn
        · exact h2 q (List.mem_cons_of_mem _ hq) b hbs
        · rw [List.mem_singleton.mp hbn]
          intro heq
          have ht : t = q.1 := repr_injective heq
          exact h3c.1 (ht ▸ List.mem_map.mpr ⟨q, hq, rfl⟩)
      · exact h3c.2

/-- C6 (amended): a store reached from the empty file through any sequence
of create requests whose clock readings are pairwise distinct has pairwise
distinct booking ids.  (The id is the millisecond clock reading rendered in
decimal, so two creates in the same millisecond would collide.) -/
theorem ids_pairwise_distinct (ops : List (Nat × CreateInput))
    (h : (ops.map Prod.fst).Nodup) :
    ((runCreates ops).map Booking.id).Nodup :=
  runCreatesFrom_nodup ops [] List.nodup_nil (by simp) h

theorem ids_pairwise_distinct_witness :
    ([(1, sampleInput), (2, sampleInput)].map Prod.fst).Nodup ∧
      ((runCreates [(1, sampleInput), (2, sampleInput)]).map Booking.id).Nodup :=
  ⟨by decide, ids_pairwise_distinct _ (by decide)⟩

/-- C6 fails as stated: two successful creates at the same clock reading 5
both generate the id "5", so the stored ids are not pairwise distinct. -/
theorem ids_pairwise_distinct_counterexample :
    (runCreates [(5, sampleInput), (5, sampleInput)]).map Booking.id =
        ["5", "5"] ∧
      ¬ ((runCreates [(5, sampleInput), (5, sampleInput)]).map
          Booking.id).Nodup := by decide

/-! ### Remaining witnesses and counterexamples -/

theorem createBooking_valid_witness :
    (isBlank sampleInput.fullName = false ∧ isBlank sampleInput.email = false ∧
      isBlank sampleInput.phone = false ∧ isBlank sampleInput.checkIn = false ∧
      isBlank sampleInput.checkOut = false) ∧
    ∃ b, createBooking 7 sampleInput [] = (.created b, [] ++ [b]) ∧
      b.status = "pending" ∧ b.createdAt = 7 ∧
      (sampleInput.message = none → b.message = "") :=
  ⟨by decide, createBooking_valid 7 sampleInput [] (by decide) (by decide)
    (by decide) (by decide) (by decide)⟩

theorem createBooking_invalid_witness :
    (isBlank missingInput.fullName = true ∨ isBlank missingInput.email = true ∨
      isBlank missingInput.phone = true ∨ isBlank missingInput.checkIn = true ∨
      isBlank missingInput.checkOut = true) ∧
    createBooking 7 missingInput [clashBooking] = (.badRequest, [clashBooking]) :=
  ⟨by decide, createBooking_invalid 7 missingInput [clashBooking] (by decide)⟩

theorem updateStatus_frame_witness :
    (∃ b ∈ [clashBooking], b.id = "5") ∧
      frameSpec 9 "5" "confirmed" [clashBooking] :=
  ⟨by decide, updateStatus_frame 9 "5" "confirmed" [clashBooking] (by decide)⟩

theorem updateStatus_notFound_witness :
    (∀ b ∈ [clashBooking], b.id ≠ "zzz") ∧
      updateStatus 9 "zzz" "confirmed" [clashBooking] =
        (.notFound, [clashBooking]) :=
  ⟨by decide, updateStatus_notFound 9 "zzz" "confirmed" [clashBooking]
    (by decide)⟩

theorem updateStatus_permissive_witness :
    (∃ b ∈ [clashBooking], b.id = "5") ∧
      ∃ nb, (updateStatus 9 "5" "garbage" [clashBooking]).1 = .ok nb ∧
        nb.status = "garbage" ∧
        nb ∈ (updateStatus 9 "5" "garbage" [clashBooking]).2 :=
  ⟨by decide, updateStatus_permissive 9 "5" "garbage" [clashBooking]
    (by decide)⟩

theorem create_then_getById_witness :
    (requiredMissing sampleInput = false) ∧
      (∀ b ∈ ([] : List Booking), b.id ≠ Nat.repr 7) ∧
      ∃ b, (createBooking 7 sampleInput []).1 = .created b ∧
        getById b.id (createBooking 7 sampleInput []).2 = some b :=
  ⟨by decide, by decide,
    create_then_getById 7 sampleInput [] (by decide) (by decide)⟩

/-- C9 fails as stated: on a prior store already holding a booking with id
"5", a create at clock reading 5 returns a fresh record with the same id
"5", and `getById "5"` then returns the prior booking, not the created
one. -/
theorem create_then_getById_counterexample :
    (createBooking 5 sampleInput [clashBooking]).1 =
        .created (newBooking 5 sampleInput) ∧
      getById (newBooking 5 sampleInput).id
          (createBooking 5 sampleInput [clashBooking]).2 = some clashBooking ∧
      clashBooking ≠ newBooking 5 sampleInput := by decide

end Hotel
